import Mathlib

/-!
Shallow embedding of the character codec core from `src/libcore/char.rs`:
scalar-value validation (`from_u32`), digit/radix conversion (`to_digit`,
`from_digit`), UTF-8 / UTF-16 length and encoding (`len_utf8`, `len_utf16`,
`encode_utf8`, `encode_utf16`), and the two lazy escape iterators
(`UnicodeEscapedChars`, `DefaultEscapedChars`).

Conventions of the embedding:
* a Rust `char` is a `Nat` code point (validity is the predicate `ValidScalar`);
* machine integers are `Nat` with explicit `% 2 ^ w` at the points where the
  source performs a narrowing cast (`as u8`, `as u16`);
* mutable slices are `List Nat` passed in and returned: an encoder returns the
  pair of its `Option` result and the buffer after the call, and a branch of
  the source that performs no write returns the buffer unchanged;
* a Rust panic is `Except.error` carrying the panic message, normal returns
  are `Except.ok`;
* the single-pass iterators are explicit state machines whose `next` returns
  the yielded element (or `none`) together with the successor state.
-/

namespace CharRs

/-- UTF-8 continuation-byte tag `0b1000_0000` (static `TAG_CONT`). -/
def TAG_CONT : Nat := 0x80

/-- UTF-8 two-byte leading tag `0b1100_0000` (static `TAG_TWO_B`). -/
def TAG_TWO_B : Nat := 0xC0

/-- UTF-8 three-byte leading tag `0b1110_0000` (static `TAG_THREE_B`). -/
def TAG_THREE_B : Nat := 0xE0

/-- UTF-8 four-byte leading tag `0b1111_0000` (static `TAG_FOUR_B`). -/
def TAG_FOUR_B : Nat := 0xF0

/-- Threshold below which a code point needs one UTF-8 byte (static `MAX_ONE_B`). -/
def MAX_ONE_B : Nat := 0x80

/-- Threshold below which a code point needs at most two UTF-8 bytes (static `MAX_TWO_B`). -/
def MAX_TWO_B : Nat := 0x800

/-- Threshold below which a code point needs at most three UTF-8 bytes (static `MAX_THREE_B`). -/
def MAX_THREE_B : Nat := 0x10000

/-- The highest valid code point (`pub const MAX: char`). -/
def MAX : Nat := 0x10FFFF

/-- Validity of a code point as a Unicode scalar value: in range and not a
surrogate.  This is exactly the condition `from_u32` checks. -/
def ValidScalar (c : Nat) : Prop := c ≤ MAX ∧ ¬(0xD800 ≤ c ∧ c ≤ 0xDFFF)

instance (c : Nat) : Decidable (ValidScalar c) := by
  unfold ValidScalar; infer_instance

/-- Embedding of `from_u32` (char.rs lines 73-80): catch out-of-bounds and
surrogates, otherwise return the same bit pattern as a scalar value. -/
def from_u32 (i : Nat) : Option Nat :=
  if MAX < i ∨ (0xD800 ≤ i ∧ i ≤ 0xDFFF) then none
  else some i

/-- Embedding of `Char::to_digit` (char.rs lines 338-350).  The receiver is a
code point; `48`, `57`, `97`, `122`, `65`, `90` are the code points of the
characters quoted in the source ranges.  `Except.error` models the panic for
radix above 36. -/
def to_digit (c : Nat) (radix : Nat) : Except String (Option Nat) :=
  if 36 < radix then
    Except.error "to_digit: radix is too high (maximum 36)"
  else
    match
      (if 48 ≤ c ∧ c ≤ 57 then some (c - 48)
       else if 97 ≤ c ∧ c ≤ 122 then some (c + 10 - 97)
       else if 65 ≤ c ∧ c ≤ 90 then some (c + 10 - 65)
       else none) with
    | none => Except.ok none
    | some val => if val < radix then Except.ok (some val) else Except.ok none

/-- Embedding of the free function `from_digit` (char.rs lines 141-156).
The error message preserves the source spelling. -/
def from_digit (num : Nat) (radix : Nat) : Except String (Option Nat) :=
  if 36 < radix then
    Except.error "from_digit: radix is to high (maximum 36)"
  else if num < radix then
    if num < 10 then Except.ok (some (48 + num))
    else Except.ok (some (97 + num - 10))
  else
    Except.ok none

/-- Embedding of `Char::len_utf8` (char.rs lines 385-393). -/
def len_utf8 (c : Nat) : Nat :=
  if c < MAX_ONE_B then 1
  else if c < MAX_TWO_B then 2
  else if c < MAX_THREE_B then 3
  else 4

/-- Embedding of `Char::len_utf16` (char.rs lines 397-400). -/
def len_utf16 (c : Nat) : Nat :=
  if c &&& 0xFFFF = c then 1 else 2

/-- Embedding of `Char::encode_utf8` (char.rs lines 404-428).  Each stored
byte mirrors the source expression, with `% 256` for the `as u8` narrowing
cast applied before the tag is or-ed in, exactly as in the source. -/
def encode_utf8 (code : Nat) (dst : List Nat) : Option Nat × List Nat :=
  if code < MAX_ONE_B ∧ 1 ≤ dst.length then
    (some 1, dst.set 0 (code % 256))
  else if code < MAX_TWO_B ∧ 2 ≤ dst.length then
    (some 2,
      (dst.set 0 ((code >>> 6 &&& 0x1F) % 256 ||| TAG_TWO_B)).set 1
        ((code &&& 0x3F) % 256 ||| TAG_CONT))
  else if code < MAX_THREE_B ∧ 3 ≤ dst.length then
    (some 3,
      ((dst.set 0 ((code >>> 12 &&& 0x0F) % 256 ||| TAG_THREE_B)).set 1
        ((code >>> 6 &&& 0x3F) % 256 ||| TAG_CONT)).set 2
        ((code &&& 0x3F) % 256 ||| TAG_CONT))
  else if 4 ≤ dst.length then
    (some 4,
      (((dst.set 0 ((code >>> 18 &&& 0x07) % 256 ||| TAG_FOUR_B)).set 1
        ((code >>> 12 &&& 0x3F) % 256 ||| TAG_CONT)).set 2
        ((code >>> 6 &&& 0x3F) % 256 ||| TAG_CONT)).set 3
        ((code &&& 0x3F) % 256 ||| TAG_CONT))
  else
    (none, dst)

/-- Embedding of `Char::encode_utf16` (char.rs lines 432-448).  The source
subtracts `0x1_0000` before forming the surrogate pair; `% 65536` renders the
`as u16` narrowing casts. -/
def encode_utf16 (ch : Nat) (dst : List Nat) : Option Nat × List Nat :=
  if ch &&& 0xFFFF = ch ∧ 1 ≤ dst.length then
    (some 1, dst.set 0 (ch % 65536))
  else if 2 ≤ dst.length then
    (some 2,
      (dst.set 0 (0xD800 ||| ((ch - 0x10000) >>> 10) % 65536)).set 1
        (0xDC00 ||| ((ch - 0x10000) % 65536 &&& 0x3FF)))
  else
    (none, dst)

/-- Modelled from the spec: the `range_step` iterator of the `iter` module is
used by the hex-escape generator but its source is not under `src/`.  The spec
describes the digit loop as stepping from the highest nibble offset down to 0
in steps of 4 bits, i.e. an iterator that yields its current value and adds
its (here negative) step while the current value has not passed `stop`. -/
structure RangeStep where
  state : Int
  stop : Int
  step : Int

/-- Modelled from the spec: constructor corresponding to `range_step(start, stop, step)`. -/
def range_step (start stop step : Int) : RangeStep :=
  ⟨start, stop, step⟩

/-- Modelled from the spec: one pull on a `RangeStep` iterator. -/
def RangeStep.next (r : RangeStep) : Option Int × RangeStep :=
  if (0 < r.step ∧ r.state < r.stop) ∨ (r.step < 0 ∧ r.stop < r.state) then
    (some r.state, ⟨r.state + r.step, r.stop, r.step⟩)
  else
    (none, r)

/-- State of the hex-escape iterator (enum `UnicodeEscapedCharsState`,
char.rs lines 458-462).  The source variant `Type` is a reserved word in
Lean, rendered here as `TypeTag`. -/
inductive UnicodeEscapedCharsState where
  | Backslash : UnicodeEscapedCharsState
  | TypeTag : UnicodeEscapedCharsState
  | Value : RangeStep → UnicodeEscapedCharsState

/-- The hex-escape iterator (struct `UnicodeEscapedChars`, char.rs lines 453-456). -/
structure UnicodeEscapedChars where
  c : Nat
  state : UnicodeEscapedCharsState

/-- Embedding of `Char::escape_unicode` (char.rs lines 360-362). -/
def escape_unicode (c : Nat) : UnicodeEscapedChars :=
  ⟨c, UnicodeEscapedCharsState.Backslash⟩

/-- Embedding of `Iterator::next` for `UnicodeEscapedChars` (char.rs lines
464-491).  Character literals are rendered as code points: `92` is the
backslash, `120` is 'x', `117` is 'u', `85` is 'U', `48` is '0', `97` is 'a'.
The offsets the range-step iterator yields in reachable states are the
nonnegative nibble offsets, so the `as uint` cast on the offset is `Int.toNat`. -/
def UnicodeEscapedChars.next (it : UnicodeEscapedChars) :
    Option Nat × UnicodeEscapedChars :=
  match it.state with
  | UnicodeEscapedCharsState.Backslash =>
      (some 92, ⟨it.c, UnicodeEscapedCharsState.TypeTag⟩)
  | UnicodeEscapedCharsState.TypeTag =>
      let tp : Nat × Int :=
        if it.c ≤ 0x7F then (120, 2)
        else if it.c ≤ 0xFFFF then (117, 4)
        else (85, 8)
      (some tp.1,
        ⟨it.c, UnicodeEscapedCharsState.Value (range_step (4 * (tp.2 - 1)) (-1) (-4))⟩)
  | UnicodeEscapedCharsState.Value r =>
      match r.next with
      | (some offset, r2) =>
          let i := it.c >>> offset.toNat &&& 0xF
          let v := if i ≤ 9 then 48 + i else 97 + (i - 10)
          (some v, ⟨it.c, UnicodeEscapedCharsState.Value r2⟩)
      | (none, r2) =>
          (none, ⟨it.c, UnicodeEscapedCharsState.Value r2⟩)

/-- State of the default-escape iterator (enum `DefaultEscapedCharsState`,
char.rs lines 499-504). -/
inductive DefaultEscapedCharsState where
  | Backslash : Nat → DefaultEscapedCharsState
  | Char : Nat → DefaultEscapedCharsState
  | Done : DefaultEscapedCharsState
  | Unicode : UnicodeEscapedChars → DefaultEscapedCharsState

/-- The default-escape iterator (struct `DefaultEscapedChars`, char.rs lines 495-497). -/
structure DefaultEscapedChars where
  state : DefaultEscapedCharsState

/-- Embedding of `Char::escape_default` (char.rs lines 365-377).  The match
arms are rendered on code points: `9` tab, `13` carriage return, `10` line
feed, `92` backslash, `39` single quote, `34` double quote, and the payloads
`116` 't', `114` 'r', `110` 'n'. -/
def escape_default (c : Nat) : DefaultEscapedChars :=
  ⟨if c = 9 then DefaultEscapedCharsState.Backslash 116
    else if c = 13 then DefaultEscapedCharsState.Backslash 114
    else if c = 10 then DefaultEscapedCharsState.Backslash 110
    else if c = 92 then DefaultEscapedCharsState.Backslash 92
    else if c = 39 then DefaultEscapedCharsState.Backslash 39
    else if c = 34 then DefaultEscapedCharsState.Backslash 34
    else if 0x20 ≤ c ∧ c ≤ 0x7E then DefaultEscapedCharsState.Char c
    else DefaultEscapedCharsState.Unicode (escape_unicode c)⟩

/-- Embedding of `Iterator::next` for `DefaultEscapedChars` (char.rs lines
506-521). -/
def DefaultEscapedChars.next (it : DefaultEscapedChars) :
    Option Nat × DefaultEscapedChars :=
  match it.state with
  | DefaultEscapedCharsState.Backslash c =>
      (some 92, ⟨DefaultEscapedCharsState.Char c⟩)
  | DefaultEscapedCharsState.Char c =>
      (some c, ⟨DefaultEscapedCharsState.Done⟩)
  | DefaultEscapedCharsState.Done => (none, it)
  | DefaultEscapedCharsState.Unicode u =>
      match u.next with
      | (och, u2) => (och, ⟨DefaultEscapedCharsState.Unicode u2⟩)

/-- Draining a hex-escape iterator: pull until `none` (or until the fuel runs
out; fuel 12 exceeds the longest possible escape, which has 10 characters). -/
def UnicodeEscapedChars.drain : Nat → UnicodeEscapedChars → List Nat
  | 0, _ => []
  | fuel + 1, it =>
      match it.next with
      | (some ch, it2) => ch :: UnicodeEscapedChars.drain fuel it2
      | (none, _) => []

/-- Draining a default-escape iterator. -/
def DefaultEscapedChars.drain : Nat → DefaultEscapedChars → List Nat
  | 0, _ => []
  | fuel + 1, it =>
      match it.next with
      | (some ch, it2) => ch :: DefaultEscapedChars.drain fuel it2
      | (none, _) => []

/-- Specification-side UTF-8 byte sequence, written from the claim wording:
leading byte tags `0xC0`, `0xE0`, `0xF0` for the 2/3/4-byte forms, each
continuation byte is `0x80` plus 6 payload bits, most-significant chunk
first. -/
def utf8BytesSpec (c : Nat) : List Nat :=
  if c < 0x80 then [c]
  else if c < 0x800 then
    [0xC0 + c / 0x40, 0x80 + c % 0x40]
  else if c < 0x10000 then
    [0xE0 + c / 0x1000, 0x80 + c / 0x40 % 0x40, 0x80 + c % 0x40]
  else
    [0xF0 + c / 0x40000, 0x80 + c / 0x1000 % 0x40,
      0x80 + c / 0x40 % 0x40, 0x80 + c % 0x40]

/-- Verification invariant on default-escape iterator states: a pending
payload character (behind a backslash or emitted bare) is printable ASCII.
Every state `escape_default` constructs satisfies it, and `next` preserves
it. -/
def GoodDefaultState : DefaultEscapedCharsState → Prop
  | DefaultEscapedCharsState.Backslash p => p ≤ 0x7E
  | DefaultEscapedCharsState.Char p => p ≤ 0x7E
  | DefaultEscapedCharsState.Done => True
  | DefaultEscapedCharsState.Unicode _ => True

end CharRs

namespace CharRs

/-! ### Arithmetic helper lemmas -/

/-- Bitwise or with the continuation tag is addition on a 6-bit payload. -/
theorem or_tag_cont : ∀ x < 0x40, x ||| 0x80 = 0x80 + x := by decide

/-- Bitwise or with the two-byte tag is addition on a 5-bit payload. -/
theorem or_tag_two : ∀ x < 0x40, x ||| 0xC0 = 0xC0 + x := by decide

/-- Bitwise or with the three-byte tag is addition on a 4-bit payload. -/
theorem or_tag_three : ∀ x < 0x20, x ||| 0xE0 = 0xE0 + x := by decide

/-- Bitwise or with the four-byte tag is addition on a 3-bit payload. -/
theorem or_tag_four : ∀ x < 0x10, x ||| 0xF0 = 0xF0 + x := by decide

set_option maxRecDepth 8192 in
/-- Bitwise or of the high-surrogate tag with a 10-bit payload is addition. -/
theorem or_tag_d800 : ∀ x < 0x400, 0xD800 ||| x = 0xD800 + x := by decide

set_option maxRecDepth 8192 in
/-- Bitwise or of the low-surrogate tag with a 10-bit payload is addition. -/
theorem or_tag_dc00 : ∀ x < 0x400, 0xDC00 ||| x = 0xDC00 + x := by decide

/-- Mask by `0x3F` is reduction modulo 64. -/
theorem and_3f (x : Nat) : x &&& 0x3F = x % 0x40 := by
  simpa using Nat.and_pow_two_sub_one_eq_mod x 6

/-- Mask by `0x1F` is reduction modulo 32. -/
theorem and_1f (x : Nat) : x &&& 0x1F = x % 0x20 := by
  simpa using Nat.and_pow_two_sub_one_eq_mod x 5

/-- Mask by `0x0F` is reduction modulo 16. -/
theorem and_0f (x : Nat) : x &&& 0x0F = x % 0x10 := by
  simpa using Nat.and_pow_two_sub_one_eq_mod x 4

/-- Mask by `0x07` is reduction modulo 8. -/
theorem and_07 (x : Nat) : x &&& 0x07 = x % 0x8 := by
  simpa using Nat.and_pow_two_sub_one_eq_mod x 3

/-- Mask by `0x3FF` is reduction modulo 1024. -/
theorem and_3ff (x : Nat) : x &&& 0x3FF = x % 0x400 := by
  simpa using Nat.and_pow_two_sub_one_eq_mod x 10

/-- Mask by `0xFFFF` is reduction modulo 65536. -/
theorem and_ffff (x : Nat) : x &&& 0xFFFF = x % 0x10000 := by
  simpa using Nat.and_pow_two_sub_one_eq_mod x 16

/-- The BMP test of `encode_utf16` and `len_utf16` is the bound `x < 0x10000`. -/
theorem and_ffff_self_iff (x : Nat) : x &&& 0xFFFF = x ↔ x < 0x10000 := by
  rw [and_ffff]; omega

/-- Right shift by 6 is division by 64. -/
theorem shr6 (x : Nat) : x >>> 6 = x / 0x40 := by
  simpa using Nat.shiftRight_eq_div_pow x 6

/-- Right shift by 10 is division by 1024. -/
theorem shr10 (x : Nat) : x >>> 10 = x / 0x400 := by
  simpa using Nat.shiftRight_eq_div_pow x 10

/-- Right shift by 12 is division by 4096. -/
theorem shr12 (x : Nat) : x >>> 12 = x / 0x1000 := by
  simpa using Nat.shiftRight_eq_div_pow x 12

/-- Right shift by 18 is division by 262144. -/
theorem shr18 (x : Nat) : x >>> 18 = x / 0x40000 := by
  simpa using Nat.shiftRight_eq_div_pow x 18

/-! ### Byte-level lemmas equating the encoder expressions with the
specification bytes -/

/-- Low continuation byte of a UTF-8 sequence. -/
theorem utf8_cont_low (c : Nat) :
    (c &&& 0x3F) % 256 ||| TAG_CONT = 0x80 + c % 0x40 := by
  rw [TAG_CONT, and_3f, Nat.mod_eq_of_lt (by omega), or_tag_cont _ (by omega)]

/-- Continuation byte carrying bits 6..11. -/
theorem utf8_cont_shr6 (c : Nat) :
    (c >>> 6 &&& 0x3F) % 256 ||| TAG_CONT = 0x80 + c / 0x40 % 0x40 := by
  rw [TAG_CONT, shr6, and_3f, Nat.mod_eq_of_lt (by omega), or_tag_cont _ (by omega)]

/-- Continuation byte carrying bits 12..17. -/
theorem utf8_cont_shr12 (c : Nat) :
    (c >>> 12 &&& 0x3F) % 256 ||| TAG_CONT = 0x80 + c / 0x1000 % 0x40 := by
  rw [TAG_CONT, shr12, and_3f, Nat.mod_eq_of_lt (by omega), or_tag_cont _ (by omega)]

/-- Leading byte of a two-byte UTF-8 sequence. -/
theorem utf8_lead_two (c : Nat) (h : c < 0x800) :
    (c >>> 6 &&& 0x1F) % 256 ||| TAG_TWO_B = 0xC0 + c / 0x40 := by
  rw [TAG_TWO_B, shr6, and_1f, Nat.mod_eq_of_lt (by omega), or_tag_two _ (by omega)]
  omega

/-- Leading byte of a three-byte UTF-8 sequence. -/
theorem utf8_lead_three (c : Nat) (h : c < 0x10000) :
    (c >>> 12 &&& 0x0F) % 256 ||| TAG_THREE_B = 0xE0 + c / 0x1000 := by
  rw [TAG_THREE_B, shr12, and_0f, Nat.mod_eq_of_lt (by omega), or_tag_three _ (by omega)]
  omega

/-- Leading byte of a four-byte UTF-8 sequence. -/
theorem utf8_lead_four (c : Nat) (h : c ≤ 0x10FFFF) :
    (c >>> 18 &&& 0x07) % 256 ||| TAG_FOUR_B = 0xF0 + c / 0x40000 := by
  rw [TAG_FOUR_B, shr18, and_07, Nat.mod_eq_of_lt (by omega), or_tag_four _ (by omega)]
  omega

/-! ### List helper lemmas -/

/-- Setting position 0 of a nonempty list replaces its head. -/
theorem set_prefix_one (x : Nat) :
    ∀ (l : List Nat), 1 ≤ l.length → l.set 0 x = x :: l.drop 1
  | [], h => absurd h (by decide)
  | _ :: _, _ => rfl

/-- Setting positions 0 and 1 of a list of length at least 2. -/
theorem set_prefix_two (x y : Nat) :
    ∀ (l : List Nat), 2 ≤ l.length → (l.set 0 x).set 1 y = x :: y :: l.drop 2
  | [], h => absurd h (by decide)
  | [_], h => absurd h (by simp)
  | _ :: _ :: _, _ => rfl

/-- Setting positions 0, 1 and 2 of a list of length at least 3. -/
theorem set_prefix_three (x y z : Nat) :
    ∀ (l : List Nat), 3 ≤ l.length →
      ((l.set 0 x).set 1 y).set 2 z = x :: y :: z :: l.drop 3
  | [], h => absurd h (by decide)
  | [_], h => absurd h (by simp)
  | [_, _], h => absurd h (by simp)
  | _ :: _ :: _ :: _, _ => rfl

/-- Setting positions 0 to 3 of a list of length at least 4. -/
theorem set_prefix_four (x y z w : Nat) :
    ∀ (l : List Nat), 4 ≤ l.length →
      (((l.set 0 x).set 1 y).set 2 z).set 3 w = x :: y :: z :: w :: l.drop 4
  | [], h => absurd h (by decide)
  | [_], h => absurd h (by simp)
  | [_, _], h => absurd h (by simp)
  | [_, _, _], h => absurd h (by simp)
  | _ :: _ :: _ :: _ :: _, _ => rfl

end CharRs

namespace CharRs

/-- C4: for every character and every radix at most 36, `to_digit` maps an
ASCII decimal digit to its value, a lowercase letter to its value plus 10, an
uppercase letter to its value plus 10 — in each case only when the value is
strictly below the radix, returning `none` otherwise — and maps every other
character to `none`. -/
theorem to_digit_characterization (c radix : Nat) (hr : radix ≤ 36) :
    ((48 ≤ c ∧ c ≤ 57) →
      to_digit c radix =
        Except.ok (if c - 48 < radix then some (c - 48) else none)) ∧
    ((97 ≤ c ∧ c ≤ 122) →
      to_digit c radix =
        Except.ok (if c - 97 + 10 < radix then some (c - 97 + 10) else none)) ∧
    ((65 ≤ c ∧ c ≤ 90) →
      to_digit c radix =
        Except.ok (if c - 65 + 10 < radix then some (c - 65 + 10) else none)) ∧
    (¬(48 ≤ c ∧ c ≤ 57) → ¬(97 ≤ c ∧ c ≤ 122) → ¬(65 ≤ c ∧ c ≤ 90) →
      to_digit c radix = Except.ok none) := by
  refine ⟨?_, ?_, ?_, ?_⟩
  · intro h
    unfold to_digit
    rw [if_neg (by omega : ¬ 36 < radix), if_pos h]
    by_cases hv : c - 48 < radix <;> simp [hv]
  · intro h
    unfold to_digit
    rw [if_neg (by omega : ¬ 36 < radix), if_neg (by omega : ¬(48 ≤ c ∧ c ≤ 57)),
      if_pos h, show c + 10 - 97 = c - 97 + 10 from by omega]
    by_cases hv : c - 97 + 10 < radix <;> simp [hv]
  · intro h
    unfold to_digit
    rw [if_neg (by omega : ¬ 36 < radix), if_neg (by omega : ¬(48 ≤ c ∧ c ≤ 57)),
      if_neg (by omega : ¬(97 ≤ c ∧ c ≤ 122)), if_pos h,
      show c + 10 - 65 = c - 65 + 10 from by omega]
    by_cases hv : c - 65 + 10 < radix <;> simp [hv]
  · intro h1 h2 h3
    unfold to_digit
    rw [if_neg (by omega : ¬ 36 < radix), if_neg h1, if_neg h2, if_neg h3]

/-- Witness for C4 at the concrete inputs of the spec test vector:
`to_digit` of 'F' (70) in radix 16 is 15, and of 'g' (103) in radix 16 is
`none`. -/
theorem to_digit_characterization_witness :
    to_digit 70 16 = Except.ok (if 70 - 65 + 10 < 16 then some (70 - 65 + 10) else none) ∧
    to_digit 103 16 = Except.ok (if 103 - 97 + 10 < 16 then some (103 - 97 + 10) else none) :=
  ⟨(to_digit_characterization 70 16 (by decide)).2.2.1 (by decide),
   (to_digit_characterization 103 16 (by decide)).2.1 (by decide)⟩

/-- C5: for a radix in [2, 36] and a digit value below the radix,
`from_digit` returns the ASCII digit for values below 10 and otherwise the
lowercase letter (a code point in [97, 122], never uppercase), and `to_digit`
of that character under the same radix returns the original value. -/
theorem from_digit_to_digit_roundtrip (r d : Nat) (h2 : 2 ≤ r) (h36 : r ≤ 36)
    (hd : d < r) :
    from_digit d r = Except.ok (some (if d < 10 then 48 + d else 97 + d - 10)) ∧
    (10 ≤ d → 97 ≤ 97 + d - 10 ∧ 97 + d - 10 ≤ 122) ∧
    to_digit (if d < 10 then 48 + d else 97 + d - 10) r = Except.ok (some d) := by
  refine ⟨?_, by omega, ?_⟩
  · unfold from_digit
    rw [if_neg (by omega : ¬ 36 < r), if_pos hd]
    by_cases h : d < 10 <;> simp [h]
  · by_cases h : d < 10
    · rw [if_pos h]
      unfold to_digit
      rw [if_neg (by omega : ¬ 36 < r), if_pos (by omega : 48 ≤ 48 + d ∧ 48 + d ≤ 57),
        show 48 + d - 48 = d from by omega]
      simp [hd]
    · rw [if_neg h]
      unfold to_digit
      rw [if_neg (by omega : ¬ 36 < r),
        if_neg (by omega : ¬(48 ≤ 97 + d - 10 ∧ 97 + d - 10 ≤ 57)),
        if_pos (by omega : 97 ≤ 97 + d - 10 ∧ 97 + d - 10 ≤ 122),
        show 97 + d - 10 + 10 - 97 = d from by omega]
      simp [hd]

/-- Witness for C5 at the spec test vector `fromDigit(15, 16) = 'f'`:
the digit 15 under radix 16 maps to 'f' (102) and back. -/
theorem from_digit_to_digit_roundtrip_witness :
    from_digit 15 16 = Except.ok (some (if 15 < 10 then 48 + 15 else 97 + 15 - 10)) ∧
    (10 ≤ 15 → 97 ≤ 97 + 15 - 10 ∧ 97 + 15 - 10 ≤ 122) ∧
    to_digit (if 15 < 10 then 48 + 15 else 97 + 15 - 10) 16 = Except.ok (some 15) :=
  from_digit_to_digit_roundtrip 16 15 (by decide) (by decide) (by decide)

/-- C6: for every radix above 36, `to_digit` and `from_digit` abort with the
panic diagnostic naming the radix limit, for every character and every digit
value; no `Except.ok` result — empty or otherwise — is produced. -/
theorem to_from_digit_high_radix_panics (radix : Nat) (hr : 36 < radix)
    (c num : Nat) :
    to_digit c radix = Except.error "to_digit: radix is too high (maximum 36)" ∧
    from_digit num radix = Except.error "from_digit: radix is to high (maximum 36)" := by
  constructor
  · unfold to_digit
    rw [if_pos hr]
  · unfold from_digit
    rw [if_pos hr]

/-- Witness for C6 at radix 37, the spec trigger. -/
theorem to_from_digit_high_radix_panics_witness :
    to_digit 48 37 = Except.error "to_digit: radix is too high (maximum 36)" ∧
    from_digit 0 37 = Except.error "from_digit: radix is to high (maximum 36)" :=
  to_from_digit_high_radix_panics 37 (by decide) 48 0

/-- C7: for every 32-bit integer, `from_u32` returns the value unchanged
exactly when it is at most `0x10FFFF` and outside the surrogate range, and
returns `none` for every other input. -/
theorem from_u32_characterization (i : Nat) (hi : i < 2 ^ 32) :
    (ValidScalar i → from_u32 i = some i) ∧
    (¬ ValidScalar i → from_u32 i = none) := by
  constructor
  · intro hv
    have hv2 := hv
    unfold ValidScalar MAX at hv2
    unfold from_u32 MAX
    rw [if_neg (by omega)]
  · intro hv
    have hv2 : ¬(i ≤ 0x10FFFF ∧ ¬(0xD800 ≤ i ∧ i ≤ 0xDFFF)) := fun hc => hv hc
    unfold from_u32 MAX
    rw [if_pos (by omega)]

/-- Witness for C7: the letter 'A' (65) is accepted unchanged and the
surrogate 0xD800 is rejected. -/
theorem from_u32_characterization_witness :
    from_u32 65 = some 65 ∧ from_u32 0xD800 = none :=
  ⟨(from_u32_characterization 65 (by decide)).1 (by decide),
   (from_u32_characterization 0xD800 (by decide)).2 (by decide)⟩

/-- C9 counterexample: under radix 1 the character '0' (48) DOES match as a
digit — `to_digit` returns the value 0, not the empty result the claim
asserts for every character under every radix below 2. -/
theorem to_digit_radix_one_counterexample :
    to_digit 48 1 = Except.ok (some 0) := rfl

/-- C9 (amended): under radix 0 `to_digit` returns the empty result for every
character; under radix 1 it returns 0 for the character '0' (48) and the
empty result for every other character; in both cases the call completes
normally (no fatal error). -/
theorem to_digit_low_radix (c : Nat) :
    to_digit c 0 = Except.ok none ∧
    to_digit c 1 = Except.ok (if c = 48 then some 0 else none) := by
  constructor
  · unfold to_digit
    rw [if_neg (by omega : ¬ (36 : Nat) < 0)]
    by_cases h1 : 48 ≤ c ∧ c ≤ 57
    · rw [if_pos h1]; simp
    · by_cases h2 : 97 ≤ c ∧ c ≤ 122
      · rw [if_neg h1, if_pos h2]; simp
      · by_cases h3 : 65 ≤ c ∧ c ≤ 90
        · rw [if_neg h1, if_neg h2, if_pos h3]; simp
        · rw [if_neg h1, if_neg h2, if_neg h3]
  · unfold to_digit
    rw [if_neg (by omega : ¬ (36 : Nat) < 1)]
    by_cases h1 : 48 ≤ c ∧ c ≤ 57
    · rw [if_pos h1]
      by_cases hc : c = 48
      · subst hc; simp
      · have hv : ¬(c - 48 < 1) := by omega
        simp [hv, hc]
    · by_cases h2 : 97 ≤ c ∧ c ≤ 122
      · rw [if_neg h1, if_pos h2]
        have hv : ¬(c + 10 - 97 < 1) := by omega
        have hc : ¬(c = 48) := by omega
        simp [hv, hc]
        omega
      · by_cases h3 : 65 ≤ c ∧ c ≤ 90
        · rw [if_neg h1, if_neg h2, if_pos h3]
          have hv : ¬(c + 10 - 65 < 1) := by omega
          have hc : ¬(c = 48) := by omega
          simp [hv, hc]
          omega
        · rw [if_neg h1, if_neg h2, if_neg h3]
          have hc : ¬(c = 48) := by omega
          simp [hc]

/-- C8: evaluation of the default escape of U+00FF.  The iterator delegates
to the hex escape, whose type tag tests `c <= 0x7F`, so U+00FF (which is
above 0x7F) receives the four-digit form: the drained characters are
'\' 'u' '0' '0' 'f' 'f' — six characters, not the four characters
'\' 'x' 'f' 'f' stated by the claim and by the source doc comment, which
promises two-digit `x` escapes for all of [0, 0xFF]. -/
theorem escape_default_ff_eval :
    DefaultEscapedChars.drain 12 (escape_default 0xFF) =
      [92, 117, 48, 48, 102, 102] := rfl

end CharRs

namespace CharRs

/-- Length of the specification byte sequence equals `len_utf8`. -/
theorem utf8BytesSpec_length (c : Nat) :
    (utf8BytesSpec c).length = len_utf8 c := by
  unfold utf8BytesSpec len_utf8 MAX_ONE_B MAX_TWO_B MAX_THREE_B
  split_ifs <;> rfl

/-- Full case analysis of `encode_utf8` for an in-range code point: with
sufficient capacity it writes the specification bytes as a prefix and returns
the length, with insufficient capacity it returns `none` and the untouched
buffer. -/
theorem encode_utf8_cases (c : Nat) (hM : c ≤ 0x10FFFF) (dst : List Nat) :
    (len_utf8 c ≤ dst.length →
      encode_utf8 c dst =
        (some (len_utf8 c), utf8BytesSpec c ++ dst.drop (len_utf8 c))) ∧
    (dst.length < len_utf8 c → encode_utf8 c dst = (none, dst)) := by
  rcases Nat.lt_or_ge c 0x80 with h1 | h1
  · have hl : len_utf8 c = 1 := by
      unfold len_utf8 MAX_ONE_B; rw [if_pos h1]
    have hb : utf8BytesSpec c = [c] := by
      unfold utf8BytesSpec; rw [if_pos h1]
    rw [hl, hb]
    constructor
    · intro hlen
      unfold encode_utf8 MAX_ONE_B
      rw [if_pos ⟨h1, hlen⟩, set_prefix_one _ _ hlen,
        Nat.mod_eq_of_lt (show c < 256 by omega)]
      rfl
    · intro hlen
      unfold encode_utf8 MAX_ONE_B MAX_TWO_B MAX_THREE_B
      rw [if_neg (by omega), if_neg (by omega), if_neg (by omega), if_neg (by omega)]
  · rcases Nat.lt_or_ge c 0x800 with h2 | h2
    · have hl : len_utf8 c = 2 := by
        unfold len_utf8 MAX_ONE_B MAX_TWO_B; rw [if_neg (by omega), if_pos h2]
      have hb : utf8BytesSpec c = [0xC0 + c / 0x40, 0x80 + c % 0x40] := by
        unfold utf8BytesSpec; rw [if_neg (by omega), if_pos h2]
      rw [hl, hb]
      constructor
      · intro hlen
        unfold encode_utf8 MAX_ONE_B MAX_TWO_B
        rw [if_neg (by omega), if_pos ⟨h2, hlen⟩, utf8_lead_two c h2, utf8_cont_low c,
          set_prefix_two _ _ _ hlen]
        rfl
      · intro hlen
        unfold encode_utf8 MAX_ONE_B MAX_TWO_B MAX_THREE_B
        rw [if_neg (by omega), if_neg (by omega), if_neg (by omega), if_neg (by omega)]
    · rcases Nat.lt_or_ge c 0x10000 with h3 | h3
      · have hl : len_utf8 c = 3 := by
          unfold len_utf8 MAX_ONE_B MAX_TWO_B MAX_THREE_B
          rw [if_neg (by omega), if_neg (by omega), if_pos h3]
        have hb : utf8BytesSpec c =
            [0xE0 + c / 0x1000, 0x80 + c / 0x40 % 0x40, 0x80 + c % 0x40] := by
          unfold utf8BytesSpec
          rw [if_neg (by omega), if_neg (by omega), if_pos h3]
        rw [hl, hb]
        constructor
        · intro hlen
          unfold encode_utf8 MAX_ONE_B MAX_TWO_B MAX_THREE_B
          rw [if_neg (by omega), if_neg (by omega), if_pos ⟨h3, hlen⟩,
            utf8_lead_three c h3, utf8_cont_shr6 c, utf8_cont_low c,
            set_prefix_three _ _ _ _ hlen]
          rfl
        · intro hlen
          unfold encode_utf8 MAX_ONE_B MAX_TWO_B MAX_THREE_B
          rw [if_neg (by omega), if_neg (by omega), if_neg (by omega), if_neg (by omega)]
      · have hl : len_utf8 c = 4 := by
          unfold len_utf8 MAX_ONE_B MAX_TWO_B MAX_THREE_B
          rw [if_neg (by omega), if_neg (by omega), if_neg (by omega)]
        have hb : utf8BytesSpec c =
            [0xF0 + c / 0x40000, 0x80 + c / 0x1000 % 0x40,
              0x80 + c / 0x40 % 0x40, 0x80 + c % 0x40] := by
          unfold utf8BytesSpec
          rw [if_neg (by omega), if_neg (by omega), if_neg (by omega)]
        rw [hl, hb]
        constructor
        · intro hlen
          unfold encode_utf8 MAX_ONE_B MAX_TWO_B MAX_THREE_B
          rw [if_neg (by omega), if_neg (by omega), if_neg (by omega), if_pos hlen,
            utf8_lead_four c hM, utf8_cont_shr12 c, utf8_cont_shr6 c, utf8_cont_low c,
            set_prefix_four _ _ _ _ _ hlen]
          rfl
        · intro hlen
          unfold encode_utf8 MAX_ONE_B MAX_TWO_B MAX_THREE_B
          rw [if_neg (by omega), if_neg (by omega), if_neg (by omega), if_neg (by omega)]

/-- Full case analysis of `encode_utf16` for an in-range code point. -/
theorem encode_utf16_cases (c : Nat) (hM : c ≤ 0x10FFFF) (dst : List Nat) :
    (c < 0x10000 → 1 ≤ dst.length →
      encode_utf16 c dst = (some 1, c :: dst.drop 1)) ∧
    (c < 0x10000 → dst.length = 0 → encode_utf16 c dst = (none, dst)) ∧
    (0x10000 ≤ c → 2 ≤ dst.length →
      encode_utf16 c dst =
        (some 2, (0xD800 ||| (c - 0x10000) >>> 10) ::
          (0xDC00 ||| ((c - 0x10000) &&& 0x3FF)) :: dst.drop 2)) ∧
    (0x10000 ≤ c → dst.length < 2 → encode_utf16 c dst = (none, dst)) := by
  refine ⟨?_, ?_, ?_, ?_⟩
  · intro hbmp hlen
    have hfits : c &&& 0xFFFF = c := (and_ffff_self_iff c).mpr hbmp
    unfold encode_utf16
    rw [if_pos ⟨hfits, hlen⟩, set_prefix_one _ _ hlen,
      Nat.mod_eq_of_lt (by omega : c < 65536)]
  · intro _ hlen0
    unfold encode_utf16
    rw [if_neg (by omega), if_neg (by omega)]
  · intro hsup hlen
    have hnfits : ¬(c &&& 0xFFFF = c) := by
      rw [and_ffff_self_iff]; omega
    unfold encode_utf16
    rw [if_neg (by rintro ⟨hx, -⟩; exact hnfits hx), if_pos hlen,
      show ((c - 0x10000) >>> 10) % 65536 = (c - 0x10000) >>> 10 from by
        rw [shr10]; exact Nat.mod_eq_of_lt (by omega),
      show (c - 0x10000) % 65536 &&& 0x3FF = (c - 0x10000) &&& 0x3FF from by
        rw [and_3ff, and_3ff]; exact Nat.mod_mod_of_dvd _ (by norm_num),
      set_prefix_two _ _ _ hlen]
  · intro hsup hlen
    have hnfits : ¬(c &&& 0xFFFF = c) := by
      rw [and_ffff_self_iff]; omega
    unfold encode_utf16
    rw [if_neg (by rintro ⟨hx, -⟩; exact hnfits hx), if_neg (by omega)]

end CharRs

namespace CharRs

/-- C1: for every valid scalar value and byte buffer, `encode_utf8` returns
the count `len_utf8 c` and writes exactly the standard UTF-8 bit-packing of
the code point (the bytes `utf8BytesSpec c`) as a prefix whenever the buffer
capacity is at least `len_utf8 c`, and returns `none` whenever the buffer is
shorter. -/
theorem encode_utf8_correct (c : Nat) (hc : ValidScalar c) (dst : List Nat) :
    (len_utf8 c ≤ dst.length →
      encode_utf8 c dst =
        (some (len_utf8 c), utf8BytesSpec c ++ dst.drop (len_utf8 c))) ∧
    (dst.length < len_utf8 c → encode_utf8 c dst = (none, dst)) :=
  encode_utf8_cases c hc.1 dst

/-- Witness for C1 at the spec test vector: the euro sign U+20AC encodes into
an exact-length buffer as three bytes. -/
theorem encode_utf8_correct_witness :
    ValidScalar 0x20AC ∧
    encode_utf8 0x20AC [0, 0, 0] =
      (some (len_utf8 0x20AC),
        utf8BytesSpec 0x20AC ++ List.drop (len_utf8 0x20AC) [0, 0, 0]) :=
  ⟨by decide, (encode_utf8_correct 0x20AC (by decide) [0, 0, 0]).1 (by decide)⟩

/-- C2: for every valid scalar value and code-unit buffer: a code point that
fits in 16 bits is written verbatim as one unit (count 1) when capacity is at
least 1; a supplementary-plane code point is written as the high surrogate
`0xD800 ||| ((c - 0x10000) >>> 10)`, always in [0xD800, 0xDBFF], followed by
the low surrogate `0xDC00 ||| ((c - 0x10000) &&& 0x3FF)`, always in
[0xDC00, 0xDFFF] (count 2), when capacity is at least 2; with insufficient
capacity the result is `none`; the returned count is `len_utf16 c`. -/
theorem encode_utf16_correct (c : Nat) (hc : ValidScalar c) (dst : List Nat) :
    (c < 0x10000 →
      (1 ≤ dst.length →
        encode_utf16 c dst = (some (len_utf16 c), c :: dst.drop 1) ∧
        len_utf16 c = 1) ∧
      (dst.length = 0 → encode_utf16 c dst = (none, dst))) ∧
    (0x10000 ≤ c →
      (2 ≤ dst.length →
        encode_utf16 c dst =
          (some (len_utf16 c), (0xD800 ||| (c - 0x10000) >>> 10) ::
            (0xDC00 ||| ((c - 0x10000) &&& 0x3FF)) :: dst.drop 2) ∧
        len_utf16 c = 2 ∧
        (0xD800 ≤ 0xD800 ||| (c - 0x10000) >>> 10 ∧
          0xD800 ||| (c - 0x10000) >>> 10 ≤ 0xDBFF) ∧
        (0xDC00 ≤ 0xDC00 ||| ((c - 0x10000) &&& 0x3FF) ∧
          0xDC00 ||| ((c - 0x10000) &&& 0x3FF) ≤ 0xDFFF)) ∧
      (dst.length < 2 → encode_utf16 c dst = (none, dst))) := by
  obtain ⟨hca, hcs⟩ := hc
  have hM : c ≤ 0x10FFFF := hca
  refine ⟨?_, ?_⟩
  · intro hbmp
    have h16 : len_utf16 c = 1 := by
      unfold len_utf16
      rw [if_pos ((and_ffff_self_iff c).mpr hbmp)]
    refine ⟨fun hlen => ⟨?_, h16⟩, fun h0 => (encode_utf16_cases c hM dst).2.1 hbmp h0⟩
    rw [h16]
    exact (encode_utf16_cases c hM dst).1 hbmp hlen
  · intro hsup
    have h16 : len_utf16 c = 2 := by
      unfold len_utf16
      rw [if_neg (by rw [and_ffff_self_iff]; omega)]
    refine ⟨fun hlen => ⟨?_, h16, ?_, ?_⟩,
      fun hl => (encode_utf16_cases c hM dst).2.2.2 hsup hl⟩
    · rw [h16]
      exact (encode_utf16_cases c hM dst).2.2.1 hsup hlen
    · have hx : (c - 0x10000) >>> 10 < 0x400 := by
        rw [shr10]; omega
      rw [or_tag_d800 _ hx, shr10]
      omega
    · have hy : (c - 0x10000) &&& 0x3FF < 0x400 := by
        rw [and_3ff]; omega
      rw [or_tag_dc00 _ hy, and_3ff]
      omega

/-- Witness for C2 at the spec test vector: U+1F600 encodes into an
exact-length buffer as the surrogate pair. -/
theorem encode_utf16_correct_witness :
    ValidScalar 0x1F600 ∧
    encode_utf16 0x1F600 [0, 0] =
      (some (len_utf16 0x1F600), (0xD800 ||| (0x1F600 - 0x10000) >>> 10) ::
        (0xDC00 ||| ((0x1F600 - 0x10000) &&& 0x3FF)) :: List.drop 2 [0, 0]) :=
  ⟨by decide,
    (((encode_utf16_correct 0x1F600 (by decide) [0, 0]).2 (by decide)).1 (by decide)).1⟩

/-- C3: for every valid scalar value and destination buffer, a `none` result
of either encoder leaves the buffer element-for-element unmodified, and a
`some n` result modifies only the first `n` positions: the buffer from
position `n` on is unchanged. -/
theorem encode_frame (c : Nat) (hc : ValidScalar c) (dst : List Nat) (n : Nat) :
    ((encode_utf8 c dst).1 = none → (encode_utf8 c dst).2 = dst) ∧
    ((encode_utf8 c dst).1 = some n →
      ((encode_utf8 c dst).2).drop n = dst.drop n) ∧
    ((encode_utf16 c dst).1 = none → (encode_utf16 c dst).2 = dst) ∧
    ((encode_utf16 c dst).1 = some n →
      ((encode_utf16 c dst).2).drop n = dst.drop n) := by
  have hM : c ≤ 0x10FFFF := hc.1
  have h8 := encode_utf8_cases c hM dst
  have h16 := encode_utf16_cases c hM dst
  refine ⟨?_, ?_, ?_, ?_⟩
  · intro h
    rcases Nat.lt_or_ge dst.length (len_utf8 c) with hl | hl
    · rw [h8.2 hl]
    · rw [h8.1 hl] at h
      simp at h
  · intro h
    rcases Nat.lt_or_ge dst.length (len_utf8 c) with hl | hl
    · rw [h8.2 hl] at h
      simp at h
    · rw [h8.1 hl] at h ⊢
      obtain rfl : len_utf8 c = n := by simpa using h
      exact List.drop_left' (utf8BytesSpec_length c)
  · intro h
    rcases Nat.lt_or_ge c 0x10000 with hb | hb
    · rcases Nat.eq_zero_or_pos dst.length with h0 | h0
      · rw [h16.2.1 hb h0]
      · rw [h16.1 hb h0] at h
        simp at h
    · rcases Nat.lt_or_ge dst.length 2 with hl | hl
      · rw [h16.2.2.2 hb hl]
      · rw [h16.2.2.1 hb hl] at h
        simp at h
  · intro h
    rcases Nat.lt_or_ge c 0x10000 with hb | hb
    · rcases Nat.eq_zero_or_pos dst.length with h0 | h0
      · rw [h16.2.1 hb h0] at h
        simp at h
      · rw [h16.1 hb h0] at h ⊢
        obtain rfl : (1 : Nat) = n := by simpa using h
        simp
    · rcases Nat.lt_or_ge dst.length 2 with hl | hl
      · rw [h16.2.2.2 hb hl] at h
        simp at h
      · rw [h16.2.2.1 hb hl] at h ⊢
        obtain rfl : (2 : Nat) = n := by simpa using h
        simp

/-- Witness for C3: the letter 'A' (65) with a buffer of length 2 and
count 1. -/
theorem encode_frame_witness :
    ((encode_utf8 65 [7, 8]).1 = none → (encode_utf8 65 [7, 8]).2 = [7, 8]) ∧
    ((encode_utf8 65 [7, 8]).1 = some 1 →
      ((encode_utf8 65 [7, 8]).2).drop 1 = List.drop 1 [7, 8]) ∧
    ((encode_utf16 65 [7, 8]).1 = none → (encode_utf16 65 [7, 8]).2 = [7, 8]) ∧
    ((encode_utf16 65 [7, 8]).1 = some 1 →
      ((encode_utf16 65 [7, 8]).2).drop 1 = List.drop 1 [7, 8]) :=
  encode_frame 65 (by decide) [7, 8] 1

end CharRs

namespace CharRs

/-- ASCII code points pass the validator unchanged. -/
theorem from_u32_ascii (x : Nat) (h : x ≤ 0x7F) : from_u32 x = some x := by
  unfold from_u32 MAX
  rw [if_neg (by omega)]

/-- Every element the hex-escape iterator yields, from any state, is ASCII:
the backslash, a type tag from the set x u U, or a hex digit. -/
theorem unicode_next_ascii (it : UnicodeEscapedChars) (ch : Nat)
    (it2 : UnicodeEscapedChars) (h : it.next = (some ch, it2)) : ch ≤ 0x7F := by
  obtain ⟨c, st⟩ := it
  cases st with
  | Backslash =>
      simp [UnicodeEscapedChars.next] at h
      omega
  | TypeTag =>
      by_cases h1 : c ≤ 0x7F
      · simp [UnicodeEscapedChars.next, h1] at h
        omega
      · by_cases h2 : c ≤ 0xFFFF
        · simp [UnicodeEscapedChars.next, h1, h2] at h
          omega
        · simp [UnicodeEscapedChars.next, h1, h2] at h
          omega
  | Value r =>
      rcases hr : r.next with ⟨o, r2⟩
      cases o with
      | none => simp [UnicodeEscapedChars.next, hr] at h
      | some off =>
          have hb : c >>> off.toNat &&& 0xF ≤ 0xF := Nat.and_le_right
          simp [UnicodeEscapedChars.next, hr] at h
          split_ifs at h <;> omega

/-- The `next` of a default-escape iterator in a good state yields an ASCII
character and a good successor state. -/
theorem default_next_ascii (it : DefaultEscapedChars)
    (hG : GoodDefaultState it.state) (ch : Nat) (it2 : DefaultEscapedChars)
    (h : it.next = (some ch, it2)) :
    ch ≤ 0x7F ∧ GoodDefaultState it2.state := by
  obtain ⟨st⟩ := it
  cases st with
  | Backslash p =>
      simp [DefaultEscapedChars.next] at h
      obtain ⟨rfl, rfl⟩ := h
      exact ⟨by omega, hG⟩
  | Char p =>
      simp [DefaultEscapedChars.next] at h
      obtain ⟨rfl, rfl⟩ := h
      exact ⟨by exact le_trans hG (by omega), trivial⟩
  | Done =>
      simp [DefaultEscapedChars.next] at h
  | Unicode u =>
      rcases hu : u.next with ⟨o, u2⟩
      cases o with
      | none => simp [DefaultEscapedChars.next, hu] at h
      | some x =>
          simp [DefaultEscapedChars.next, hu] at h
          obtain ⟨rfl, rfl⟩ := h
          exact ⟨unicode_next_ascii u x u2 hu, trivial⟩

/-- Every character drained from a hex-escape iterator is ASCII. -/
theorem unicode_drain_ascii :
    ∀ (fuel : Nat) (it : UnicodeEscapedChars) (ch : Nat),
      ch ∈ UnicodeEscapedChars.drain fuel it → ch ≤ 0x7F := by
  intro fuel
  induction fuel with
  | zero =>
      intro it ch h
      simp [UnicodeEscapedChars.drain] at h
  | succ n ih =>
      intro it ch h
      rcases hn : it.next with ⟨o, it2⟩
      cases o with
      | none => simp [UnicodeEscapedChars.drain, hn] at h
      | some x =>
          simp [UnicodeEscapedChars.drain, hn] at h
          rcases h with h | h
          · have := unicode_next_ascii it x it2 hn
            omega
          · exact ih it2 ch h

/-- Every character drained from a default-escape iterator in a good state is
ASCII. -/
theorem default_drain_ascii :
    ∀ (fuel : Nat) (it : DefaultEscapedChars), GoodDefaultState it.state →
      ∀ ch, ch ∈ DefaultEscapedChars.drain fuel it → ch ≤ 0x7F := by
  intro fuel
  induction fuel with
  | zero =>
      intro it _ ch h
      simp [DefaultEscapedChars.drain] at h
  | succ n ih =>
      intro it hG ch h
      rcases hn : it.next with ⟨o, it2⟩
      cases o with
      | none => simp [DefaultEscapedChars.drain, hn] at h
      | some x =>
          simp [DefaultEscapedChars.drain, hn] at h
          rcases h with h | h
          · have := (default_next_ascii it hG x it2 hn).1
            omega
          · exact ih it2 (default_next_ascii it hG x it2 hn).2 ch h

/-- The initial state built by `escape_default` is good, for every code
point. -/
theorem escape_default_good (c : Nat) : GoodDefaultState (escape_default c).state := by
  unfold escape_default
  split_ifs <;> simp only [GoodDefaultState] <;> first | trivial | omega

end CharRs

namespace CharRs

/-- C10: every character produced by `from_digit` under a radix at most 36,
and every character drained from a hex-escape or default-escape iterator of a
valid scalar value, is ASCII (at most 0x7F) and hence itself passes the
validator unchanged: these paths can never fabricate an out-of-range or
surrogate value. -/
theorem digit_and_escape_outputs_ascii :
    (∀ num radix ch, radix ≤ 36 →
      from_digit num radix = Except.ok (some ch) →
      ch ≤ 0x7F ∧ from_u32 ch = some ch) ∧
    (∀ c, ValidScalar c → ∀ fuel ch,
      ch ∈ UnicodeEscapedChars.drain fuel (escape_unicode c) →
      ch ≤ 0x7F ∧ from_u32 ch = some ch) ∧
    (∀ c, ValidScalar c → ∀ fuel ch,
      ch ∈ DefaultEscapedChars.drain fuel (escape_default c) →
      ch ≤ 0x7F ∧ from_u32 ch = some ch) := by
  refine ⟨?_, ?_, ?_⟩
  · intro num radix ch hr h
    unfold from_digit at h
    rw [if_neg (by omega)] at h
    by_cases hn : num < radix
    · rw [if_pos hn] at h
      by_cases h10 : num < 10
      · rw [if_pos h10] at h
        simp at h
        have hch : ch ≤ 0x7F := by omega
        exact ⟨hch, from_u32_ascii ch hch⟩
      · rw [if_neg h10] at h
        simp at h
        have hch : ch ≤ 0x7F := by omega
        exact ⟨hch, from_u32_ascii ch hch⟩
    · rw [if_neg hn] at h
      simp at h
  · intro c _ fuel ch h
    have hch := unicode_drain_ascii fuel (escape_unicode c) ch h
    exact ⟨hch, from_u32_ascii ch hch⟩
  · intro c _ fuel ch h
    have hch := default_drain_ascii fuel (escape_default c) (escape_default_good c) ch h
    exact ⟨hch, from_u32_ascii ch hch⟩

/-- Witness for C10: the digit character 'f' (102) produced by
`from_digit 15 16`, the backslash (92) yielded by the hex escape of U+1F600,
and the payload 'n' (110) yielded by the default escape of the line feed are
each ASCII and validator-accepted. -/
theorem digit_and_escape_outputs_ascii_witness :
    (102 ≤ 0x7F ∧ from_u32 102 = some 102) ∧
    (92 ≤ 0x7F ∧ from_u32 92 = some 92) ∧
    (110 ≤ 0x7F ∧ from_u32 110 = some 110) :=
  ⟨digit_and_escape_outputs_ascii.1 15 16 102 (by decide) rfl,
   digit_and_escape_outputs_ascii.2.1 0x1F600 (by decide) 12 92 (by decide),
   digit_and_escape_outputs_ascii.2.2 10 (by decide) 12 110 (by decide)⟩

end CharRs
